import Mathlib

/-!
Verification of the LLMSearcher agent core against its specification.

The definitions below are a shallow embedding of the Python sources:

* `src/main.py` — `WorkAssistant`: `deep_search`, `evaluate_content_quality`,
  `_execute_extract_text`, `_execute_click_result`, `SearchConfig`,
  `ExtractParams`, `ClickParams`;
* `src/brows_er（unfinished）/Agent/contextmanager/service.py` —
  `MessageHistory`, `ContextManager._trim_messages`, token counting.

Modelling conventions: Python `int` is `Int` (unbounded, as in Python);
Python `float` arithmetic on the small scores/proportions handled here is
modelled exactly by `ℚ`; Python exceptions are explicit `Except`/`Option`
results; the Selenium driver and the LLM transport are opaque environments
supplying page text, links and model replies.  Each definition's doc
comment names the Python function it embeds.
-/

namespace LLMSearcher

/-! ### Python string helpers -/

/-- Lower-case a string character by character (models `str.lower()` on the
ASCII/Basic-Latin range used by the noise-domain filter). -/
def lowerStr (s : String) : String :=
  String.mk (s.toList.map Char.toLower)

/-- `needle` occurs at the head of `hay` (list-of-chars prefix test). -/
def listStartsWith : List Char → List Char → Bool
  | [], _ => true
  | _ :: _, [] => false
  | n :: ns, h :: hs => n = h && listStartsWith ns hs

/-- Substring containment, models Python `needle in hay`. -/
def listContainsSub (needle hay : List Char) : Bool :=
  match hay with
  | [] => listStartsWith needle []
  | _ :: hs => listStartsWith needle hay || listContainsSub needle hs

/-- Models Python `needle in hay` on strings. -/
def strContains (hay needle : String) : Bool :=
  listContainsSub needle.toList hay.toList

/-- Models Python `s.startswith(p)`. -/
def strStartsWith (s p : String) : Bool :=
  listStartsWith p.toList s.toList

/-- Models Python `str.strip()` (no arguments): drop whitespace from both
ends.  Implemented over `List Char` so that concrete values reduce in the
kernel. -/
def pyStrip (s : String) : String :=
  String.mk (((s.toList.dropWhile Char.isWhitespace).reverse.dropWhile
    Char.isWhitespace).reverse)

/-- Models the Python slice `s[:b]` for an arbitrary (possibly negative)
integer bound `b`: a non-negative bound keeps the first `b` characters, a
negative bound drops the last `-b` characters. -/
def pySliceTo (s : String) (b : Int) : String :=
  if 0 ≤ b then String.mk (s.toList.take b.toNat)
  else String.mk (s.toList.take (s.length - (-b).toNat))

/-- Models Python `int(q)` on a float value: truncation toward zero.  On a
rational `q = num/den` (with `den > 0`) this is `Int.tdiv num den`
(T-division, which truncates toward zero — Lean's `/` on `Int` rounds
toward negative infinity and would differ on negative values). -/
def pyTrunc (q : ℚ) : Int :=
  q.num.tdiv (q.den : Int)

/-- Python indexing `l[i]` for an `Int` index: negative indices count from
the end; an out-of-range index raises `IndexError`, modelled as `none`. -/
def pyIndex {α : Type} (l : List α) (i : Int) : Option α :=
  let j : Int := if i < 0 then i + l.length else i
  if 0 ≤ j then l[j.toNat]? else none

/-! ### Python-level JSON values (model of `json.loads` results) -/

/-- The Python values produced by `json.loads`: numbers (Python
`int`/`float`, both modelled in `ℚ`), strings, booleans, `None`, lists and
dicts. -/
inductive PyVal where
  | num (q : ℚ)
  | str (s : String)
  | bool (b : Bool)
  | null
  | arr (xs : List PyVal)
  | dict (xs : List (String × PyVal))

/-- `d.get k` on a Python dict built from an association list in insertion
order; with duplicate JSON keys the last value wins, as in `json.loads`. -/
def pyDictGet (d : List (String × PyVal)) (k : String) : Option PyVal :=
  d.foldl (fun acc p => if p.1 = k then some p.2 else acc) none

/-! ### A JSON parser modelling `json.loads`

Recursive-descent parser over `List Char` with explicit fuel (the fuel is
a structural bound on nesting plus member count; `json_loads` supplies
`length + 2`, which is ample since every nesting level and every member
consumes input).  Modelled subset: objects, arrays, strings with the
simple escapes `\" \\ \/ \b \f \n \r \t`, numbers with optional sign,
fraction and exponent, `true`/`false`/`null`.  (`\uXXXX` escapes and the
non-standard `Infinity`/`NaN` literals are outside the modelled subset;
no input considered in this development uses them.) -/

/-- JSON whitespace. -/
def jsonWs (c : Char) : Bool :=
  c = ' ' || c = '\t' || c = '\n' || c = '\r'

/-- Drop leading JSON whitespace. -/
def skipWs : List Char → List Char
  | [] => []
  | c :: cs => if jsonWs c then skipWs cs else c :: cs

/-- Decode one simple JSON string escape character. -/
def jsonEscChar (e : Char) : Option Char :=
  if e = '"' then some '"'
  else if e = '\\' then some '\\'
  else if e = '/' then some '/'
  else if e = 'b' then some (Char.ofNat 8)
  else if e = 'f' then some (Char.ofNat 12)
  else if e = 'n' then some '\n'
  else if e = 'r' then some '\r'
  else if e = 't' then some '\t'
  else none

/-- Parse the body of a JSON string (the opening quote already consumed);
returns the decoded characters and the rest of the input.  Raw control
characters are rejected, as in strict `json.loads`. -/
def parseJStringAux : List Char → Option (List Char × List Char)
  | [] => none
  | c :: cs =>
    if c = '"' then some ([], cs)
    else if c = '\\' then
      match cs with
      | [] => none
      | e :: cs' =>
        match jsonEscChar e with
        | some ch =>
          match parseJStringAux cs' with
          | some (s, r) => some (ch :: s, r)
          | none => none
        | none => none
    else if c.toNat < 32 then none
    else
      match parseJStringAux cs with
      | some (s, r) => some (c :: s, r)
      | none => none

/-- Digits of a decimal literal as a natural number. -/
def parseNatDigits (ds : List Char) : Nat :=
  ds.foldl (fun a c => a * 10 + (c.toNat - 48)) 0

/-- Parse a JSON number (grammar `-? int frac? exp?`); returns its exact
rational value and the rest of the input. -/
def parseJNumber (cs : List Char) : Option (ℚ × List Char) :=
  let (neg, cs1) :=
    match cs with
    | '-' :: r => (true, r)
    | _ => (false, cs)
  match cs1 with
  | [] => none
  | d :: _ =>
    if ¬ d.isDigit then none
    else
      let (ds, rest) := cs1.span Char.isDigit
      if 1 < ds.length ∧ ds.head? = some '0' then none
      else
        let intPart : ℚ := (parseNatDigits ds : ℚ)
        let fracStep : Option (ℚ × List Char) :=
          match rest with
          | '.' :: r2 =>
            let (fs, r3) := r2.span Char.isDigit
            if fs = [] then none
            else some (intPart + (parseNatDigits fs : ℚ) / ((10 : ℚ) ^ fs.length), r3)
          | _ => some (intPart, rest)
        match fracStep with
        | none => none
        | some (mant, r4) =>
          let expStep : Option (ℚ × List Char) :=
            match r4 with
            | e :: r5 =>
              if e = 'e' ∨ e = 'E' then
                let (esign, r6) :=
                  match r5 with
                  | '+' :: r7 => (false, r7)
                  | '-' :: r7 => (true, r7)
                  | _ => (false, r5)
                let (es, r8) := r6.span Char.isDigit
                if es = [] then none
                else
                  let k := parseNatDigits es
                  some (if esign then mant / ((10 : ℚ) ^ k) else mant * ((10 : ℚ) ^ k), r8)
              else some (mant, r4)
            | [] => some (mant, r4)
          match expStep with
          | none => none
          | some (v, r9) => some (if neg then -v else v, r9)

/-- Parser mode: one JSON value, the members of an object (after `{`),
or the elements of an array (after `[`). -/
inductive PMode where
  | value
  | members
  | elems

/-- The recursive core of the JSON parser, fuel-indexed and structurally
recursive on the fuel (so that concrete parses evaluate by `rfl`/`decide`). -/
def parseJ : Nat → PMode → List Char → Option (PyVal × List Char)
  | 0, _, _ => none
  | Nat.succ f, .value, cs =>
    (match cs with
    | [] => none
    | c :: rest =>
      if c = '"' then
        match parseJStringAux rest with
        | some (s, r) => some (.str (String.mk s), r)
        | none => none
      else if c = '{' then
        match skipWs rest with
        | '}' :: r => some (.dict [], r)
        | r => parseJ f .members r
      else if c = '[' then
        match skipWs rest with
        | ']' :: r => some (.arr [], r)
        | r => parseJ f .elems r
      else if c = 't' then
        if listStartsWith "rue".toList rest then some (.bool true, rest.drop 3) else none
      else if c = 'f' then
        if listStartsWith "alse".toList rest then some (.bool false, rest.drop 4) else none
      else if c = 'n' then
        if listStartsWith "ull".toList rest then some (.null, rest.drop 3) else none
      else if c = '-' ∨ c.isDigit then
        match parseJNumber cs with
        | some (q, r) => some (.num q, r)
        | none => none
      else none)
  | Nat.succ f, .members, cs =>
    (match cs with
    | '"' :: ks =>
      match parseJStringAux ks with
      | some (key, r1) =>
        match skipWs r1 with
        | ':' :: r2 =>
          match parseJ f .value (skipWs r2) with
          | some (v, r3) =>
            match skipWs r3 with
            | ',' :: r4 =>
              match parseJ f .members (skipWs r4) with
              | some (.dict ms, r5) => some (.dict ((String.mk key, v) :: ms), r5)
              | _ => none
            | '}' :: r4 => some (.dict [(String.mk key, v)], r4)
            | _ => none
          | none => none
        | _ => none
      | none => none
    | _ => none)
  | Nat.succ f, .elems, cs =>
    (match parseJ f .value cs with
    | some (v, r1) =>
      match skipWs r1 with
      | ',' :: r2 =>
        match parseJ f .elems (skipWs r2) with
        | some (.arr vs, r3) => some (.arr (v :: vs), r3)
        | _ => none
      | ']' :: r2 => some (.arr [v], r2)
      | _ => none
    | none => none)

/-- Parse one JSON value (no leading whitespace); fuel-indexed. -/
def parseValue (fuel : Nat) (cs : List Char) : Option (PyVal × List Char) :=
  parseJ fuel .value cs

/-- Models `json.loads(s)`: parse one JSON value surrounded by optional
whitespace, requiring the whole input to be consumed; `none` is
`json.JSONDecodeError`. -/
def json_loads (s : String) : Option PyVal :=
  let cs := s.toList
  match parseValue (cs.length + 2) (skipWs cs) with
  | some (v, rest) => if skipWs rest = [] then some v else none
  | none => none

/-! ### `evaluate_content_quality` (src/main.py 1179–1217)

The ChatModel transport is opaque: the embedding takes the raw reply text
(`response['choices'][0]['message']['content']`) as input and models the
code path from there. -/

/-- Python exceptions relevant to the embedded call sites. -/
inductive PyExc where
  | attributeError
  | jsonDecodeError
  | valueError
  | typeError
deriving DecidableEq

/-- Models Python `float(s)` on a string: optional surrounding whitespace,
optional sign, decimal mantissa (`d+`, `d+.d*` or `.d+`), optional
exponent.  `none` is `ValueError`.  (`inf`/`nan` literals are outside the
modelled subset.) -/
def pyFloatOfString (s : String) : Option ℚ :=
  let cs := (pyStrip s).toList
  let (neg, cs1) :=
    match cs with
    | '+' :: r => (false, r)
    | '-' :: r => (true, r)
    | _ => (false, cs)
  let mantStep : Option (ℚ × List Char) :=
    match cs1 with
    | '.' :: r2 =>
      let (fs, r3) := r2.span Char.isDigit
      if fs = [] then none
      else some ((parseNatDigits fs : ℚ) / ((10 : ℚ) ^ fs.length), r3)
    | _ =>
      let (ds, rest) := cs1.span Char.isDigit
      if ds = [] then none
      else
        match rest with
        | '.' :: r2 =>
          let (fs, r3) := r2.span Char.isDigit
          some ((parseNatDigits ds : ℚ) + (parseNatDigits fs : ℚ) / ((10 : ℚ) ^ fs.length), r3)
        | _ => some ((parseNatDigits ds : ℚ), rest)
  match mantStep with
  | none => none
  | some (mant, r4) =>
    let expStep : Option (ℚ × List Char) :=
      match r4 with
      | e :: r5 =>
        if e = 'e' ∨ e = 'E' then
          let (esign, r6) :=
            match r5 with
            | '+' :: r7 => (false, r7)
            | '-' :: r7 => (true, r7)
            | _ => (false, r5)
          let (es, r8) := r6.span Char.isDigit
          if es = [] then none
          else
            let k := parseNatDigits es
            some (if esign then mant / ((10 : ℚ) ^ k) else mant * ((10 : ℚ) ^ k), r8)
        else some (mant, r4)
      | [] => some (mant, r4)
    match expStep with
    | none => none
    | some (v, r9) => if r9 = [] then some (if neg then -v else v) else none

/-- Models Python `float(v)` on a `json.loads` value: numbers pass
through, booleans become 0/1, numeric strings are parsed
(`ValueError` otherwise), everything else is a `TypeError`. -/
def pyFloat : PyVal → Except PyExc ℚ
  | .num q => .ok q
  | .bool b => .ok (if b then 1 else 0)
  | .str s =>
    match pyFloatOfString s with
    | some q => .ok q
    | none => .error .valueError
  | .null => .error .typeError
  | .arr _ => .error .typeError
  | .dict _ => .error .typeError

/-- Index of the last `'\x7d'` in a newline-free segment. -/
def lastCloseBrace (seg : List Char) : Option Nat :=
  match seg.reverse.findIdx? (· = '}') with
  | some r => some (seg.length - 1 - r)
  | none => none

/-- Scan for the leftmost regex match; see `reSearchBraces`. -/
def reSearchAux : List Char → Option (List Char)
  | [] => none
  | c :: rest =>
    if c = '{' then
      let seg := rest.takeWhile (· ≠ '\n')
      match lastCloseBrace seg with
      | some k => some (c :: seg.take (k + 1))
      | none => reSearchAux rest
    else reSearchAux rest

/-- Models `re.search(r'\x7b.*\x7d', s)`: the leftmost `'\x7b'` followed —
with no intervening newline, since `.` does not match `'\n'` — by a
`'\x7d'`; the greedy `.*` extends the match to the last `'\x7d'` on that
line. `none` models `re.search` returning `None`. -/
def reSearchBraces (s : String) : Option String :=
  (reSearchAux s.toList).map String.mk

/-- The body of `WorkAssistant.evaluate_content_quality` (src/main.py
1204–1211) on the reply text, with its Python exception points explicit:
`re.search(...)` returning `None` makes `.group(0)` raise
`AttributeError`; a `json.loads` failure raises `json.JSONDecodeError`;
`.get` on a non-dict raises `AttributeError`; `float(...)` of the score
value may raise `ValueError`/`TypeError`.  `str.strip()` is modelled by `pyStrip`. -/
def evalQualityBody (reply : String) : Except PyExc ℚ :=
  match reSearchBraces (pyStrip reply) with
  | none => .error .attributeError
  | some m =>
    match json_loads m with
    | none => .error .jsonDecodeError
    | some v =>
      match v with
      | .dict d => pyFloat ((pyDictGet d "score").getD (.num 0))
      | _ => .error .attributeError

/-- `evaluate_content_quality` with its two `except` clauses explicit: the
inner `except (AttributeError, json.JSONDecodeError)` returns `0.0`
(src/main.py 1212–1213) and the outer `except Exception` returns `0.0`
(1215–1217).  An `.error` result would model an exception escaping the
function. -/
def evaluate_content_quality_exc (reply : String) : Except PyExc ℚ :=
  match evalQualityBody reply with
  | .ok q => .ok q
  | .error .attributeError => .ok 0
  | .error .jsonDecodeError => .ok 0
  | .error _ => .ok 0

/-- `WorkAssistant.evaluate_content_quality` as the plain value it
returns. -/
def evaluate_content_quality (reply : String) : ℚ :=
  match evaluate_content_quality_exc reply with
  | .ok q => q
  | .error _ => 0

/-- The successful score-extraction pipeline as an `Option` composition
(used to characterise `evaluate_content_quality`): extract the brace
block, `json.loads` it, read `score` (default `0.0`), convert to float. -/
def scoreOfReply (reply : String) : Option ℚ :=
  match reSearchBraces (pyStrip reply) with
  | none => none
  | some m =>
    match json_loads m with
    | none => none
    | some (.dict d) =>
      match pyFloat ((pyDictGet d "score").getD (.num 0)) with
      | .ok q => some q
      | .error _ => none
    | some _ => none

/-! ### `deep_search` (src/main.py 1219–1310)

The Selenium driver is opaque: the environment supplies, per URL, the
page body text and the anchor list the JS link scan would return; the
ChatModel is opaque: the environment supplies the quality-prompt reply
per (content, task), which is then parsed by the embedded
`evaluate_content_quality`. -/

/-- `SearchConfig` (src/main.py 63–70). -/
structure SearchConfig where
  deepSearchFlag : Bool
  max_pages : Nat
  max_results : Nat
  max_depth : Nat
  quality_threshold : ℚ

/-- One entry appended by `deep_search` to its result list. -/
structure Collected where
  url : String
  data : String
  quality_score : ℚ
deriving DecidableEq

/-- The deep-search environment: page bodies, anchors `(href, text)` per
URL, and the model reply per (content, task). -/
structure DSEnv where
  body : String → String
  anchors : String → List (String × String)
  reply : String → String → String

/-- The noise-domain substrings skipped by `deep_search`
(src/main.py 1278). -/
def noiseSkips : List String := ["twitter", "facebook", "ads", "login", "signup"]

/-- The JS link scan keeps anchors whose `href` starts with `"http"`
(src/main.py 1259–1270). -/
def pageLinks (env : DSEnv) (url : String) : List String :=
  ((env.anchors url).filter (fun a => strStartsWith a.1 "http")).map (·.1)

/-- The noise filter: keep the url unless some skip-substring occurs in
`url.lower()` (src/main.py 1277–1281). -/
def childCandidates (env : DSEnv) (url : String) : List String :=
  (pageLinks env url).filter
    (fun u => !(noiseSkips.any (fun skip => strContains (lowerStr u) skip)))

/-- `WorkAssistant.deep_search` (src/main.py 1219–1310): return `[]` when
`depth >= max_depth`; otherwise score the page, keep it when
`quality_score >= quality_threshold`, and — since `depth < max_depth`
here — recurse with `depth + 1` on the first `max_results` filtered
links, concatenating child results.  Driver/tab effects are omitted; the
per-child `try/except` never fires in this pure environment. -/
def deep_search (env : DSEnv) (cfg : SearchConfig) (task : String)
    (url : String) (depth : Nat) : List Collected :=
  if _h : cfg.max_depth ≤ depth then []
  else
    let content := env.body url
    let quality_score := evaluate_content_quality (env.reply content task)
    let kept : List Collected :=
      if cfg.quality_threshold ≤ quality_score then [⟨url, content, quality_score⟩] else []
    let children : List Collected :=
      if depth < cfg.max_depth then
        ((childCandidates env url).take cfg.max_results).flatMap
          (fun sub_url => deep_search env cfg task sub_url (depth + 1))
      else []
    kept ++ children
termination_by cfg.max_depth - depth
decreasing_by omega

/-- Number of invocations of `deep_search` (the root call included)
performed by a run: instrumentation for the termination/recursion-depth
claims. -/
def dsCalls (env : DSEnv) (cfg : SearchConfig) (task : String)
    (url : String) (depth : Nat) : Nat :=
  if h : cfg.max_depth ≤ depth then 1
  else
    1 + (((childCandidates env url).take cfg.max_results).map
          (fun sub_url => dsCalls env cfg task sub_url (depth + 1))).sum
termination_by cfg.max_depth - depth
decreasing_by omega

/-- Run an optional child computation over each link, concatenating;
`none` as soon as a child runs out of fuel. -/
def optChildren (g : String → Option (List Collected)) : List String → Option (List Collected)
  | [] => some []
  | u :: us =>
    match g u, optChildren g us with
    | some r, some rs => some (r ++ rs)
    | _, _ => none

/-- Fuel-indexed variant of `deep_search`: `none` when the fuel runs out
before the `depth >= max_depth` guard stops the recursion.  Used to state
termination: fuel `max_depth - depth` always suffices. -/
def deepSearchFuel (env : DSEnv) (cfg : SearchConfig) (task : String) :
    Nat → String → Nat → Option (List Collected)
  | 0, _, depth => if cfg.max_depth ≤ depth then some [] else none
  | Nat.succ f, url, depth =>
    if cfg.max_depth ≤ depth then some []
    else
      let content := env.body url
      let quality_score := evaluate_content_quality (env.reply content task)
      let kept : List Collected :=
        if cfg.quality_threshold ≤ quality_score then [⟨url, content, quality_score⟩] else []
      match optChildren (fun sub_url => deepSearchFuel env cfg task f sub_url (depth + 1))
          ((childCandidates env url).take cfg.max_results) with
      | some rs => some (kept ++ rs)
      | none => none

/-! ### `_execute_extract_text` (src/main.py 901–958) -/

/-- `ExtractParams` (src/main.py 41–46). -/
structure ExtractParams where
  selector : String
  «attribute» : String
  keywords : String

/-- A located DOM element as the executor sees it: its visible text and
its HTML attributes (`get_attribute` may return `None`). -/
structure Elem where
  text : String
  attr : String → Option String

/-- The driver environment for one extraction: the elements each CSS
selector locates (empty list models the `WebDriverWait` timeout), the
current URL and the timestamp string. -/
structure ExtractEnv where
  elems : String → List Elem
  current_url : String
  timestamp : String

/-- The selector list tried in order (src/main.py 907–921): the step's own
selector first, then the fixed fallback list. -/
def selectorList (sel : String) : List String :=
  [sel, "article", ".article", ".content", "#content", "main",
   ".main-content", ".post-content", ".entry-content", ".text", "p", "body"]

/-- The text read from one element (src/main.py 934): the visible text
when `attribute == "text"`, else `get_attribute(attribute)`. -/
def elemText (ps : ExtractParams) (e : Elem) : Option String :=
  if ps.«attribute» = "text" then some e.text else e.attr ps.«attribute»

/-- The non-empty stripped fragments one selector yields (src/main.py
930–938): `if text and text.strip(): texts.append(text.strip())`. -/
def fragmentsFor (env : ExtractEnv) (ps : ExtractParams) (sel : String) : List String :=
  (env.elems sel).filterMap fun e =>
    match elemText ps e with
    | some t => if pyStrip t = "" then none else some (pyStrip t)
    | none => none

/-- The entry appended to `collected_info` (src/main.py 941–946; the
`"type": "text"` tag is constant and omitted). -/
structure ExtractRec where
  data : String
  url : String
  timestamp : String
deriving DecidableEq

/-- The selector loop (src/main.py 924–951): first selector yielding a
non-empty fragment list wins; `"\n".join(texts)[:5000]`. -/
def extractLoop (env : ExtractEnv) (ps : ExtractParams) : List String → Option ExtractRec
  | [] => none
  | sel :: rest =>
    let texts := fragmentsFor env ps sel
    if texts.isEmpty then extractLoop env ps rest
    else some ⟨String.mk ((String.intercalate "\n" texts).toList.take 5000), env.current_url, env.timestamp⟩

/-- `WorkAssistant._execute_extract_text` (src/main.py 901–958): the
returned flag and the `collected_info` entry appended, if any. -/
def execute_extract_text (env : ExtractEnv) (ps : ExtractParams) : Bool × Option ExtractRec :=
  match extractLoop env ps (selectorList ps.selector) with
  | some r => (true, some r)
  | none => (false, none)

/-! ### `_execute_click_result` (src/main.py 839–899) -/

/-- One search-result container element: its visible text (used by the ad
filter) and the `href` of its first `a[href]` descendant (`none` models
both a missing anchor — a `TimeoutException` — and a `None` href). -/
structure ClickElem where
  text : String
  href : Option String
deriving DecidableEq

/-- The driver environment for one click: the `.result,.c-container`
elements present (`[]` models the `WebDriverWait` timeout). -/
structure ClickEnv where
  results : List ClickElem

/-- The ad filter (src/main.py 852–859): keep results whose text does not
contain `"广告"`. -/
def click_valid (env : ClickEnv) : List ClickElem :=
  env.results.filter (fun r => !(strContains r.text "广告"))

/-- The element picked by `index = min(int(params.index), len(valid_results) - 1)`
followed by Python list indexing (src/main.py 866–867). -/
def clickTarget (env : ClickEnv) (index : Int) : Option ClickElem :=
  pyIndex (click_valid env) (min index ((click_valid env).length - 1))

/-- `WorkAssistant._execute_click_result` (src/main.py 839–899), reduced
to the URL it opens: `none` models every `return False` path (no results,
no non-ad result, `IndexError` caught by the outer `except`, missing
anchor, empty href).  `index` is the already-parsed value of
`int(params.index)`; a non-numeric `params.index` string would raise
`ValueError`, also caught by the outer `except`. -/
def execute_click_result (env : ClickEnv) (index : Int) : Option String :=
  if env.results.isEmpty then none
  else
    let valid := click_valid env
    if valid.isEmpty then none
    else
      match clickTarget env index with
      | none => none
      | some target =>
        match target.href with
        | none => none
        | some url => if url = "" then none else some url

/-! ### `MessageHistory` and `ContextManager._trim_messages`
(src/brows_er（unfinished）/Agent/contextmanager/service.py) -/

/-- One entry of a LangChain multi-part message content list: an
`image_url` part or a `text` part (service.py 187–196, 225–230 branch on
exactly these two dict shapes). -/
inductive ContentItem where
  | image (url : String)
  | textItem (s : String)
deriving DecidableEq

/-- A message's `content`: a plain string or a list of parts. -/
inductive MsgContent where
  | text (s : String)
  | parts (items : List ContentItem)
deriving DecidableEq

/-- LangChain message roles. -/
inductive Role where
  | system
  | human
  | ai
deriving DecidableEq

/-- A LangChain `BaseMessage` as the context manager uses it. -/
structure PyMessage where
  role : Role
  content : MsgContent
deriving DecidableEq

/-- `MessageWithMetadata` (service.py 42–46): a message plus its
`MessageMetadata.input_tokens`. -/
structure MsgRec where
  message : PyMessage
  input_tokens : Int
deriving DecidableEq

/-- `MessageHistory` (service.py 25–40). -/
structure MessageHistory where
  messages : List MsgRec
  total_tokens : Int
deriving DecidableEq

/-- `MessageHistory.add_message` (service.py 31–34). -/
def MessageHistory.add_message (h : MessageHistory) (m : PyMessage) (tok : Int) :
    MessageHistory :=
  ⟨h.messages ++ [⟨m, tok⟩], h.total_tokens + tok⟩

/-- `MessageHistory.remove_message` (service.py 36–40): no-op on an empty
history; otherwise `pop(index)` with Python index semantics.  An
out-of-range index raises `IndexError` before any mutation; the state at
that point is unchanged, which is what this embedding returns. -/
def MessageHistory.remove_message (h : MessageHistory) (index : Int) : MessageHistory :=
  if h.messages.isEmpty then h
  else
    let j : Int := if index < 0 then index + h.messages.length else index
    if hj : 0 ≤ j ∧ j < h.messages.length then
      let removed := h.messages.get ⟨j.toNat, by omega⟩
      ⟨h.messages.eraseIdx j.toNat, h.total_tokens - removed.input_tokens⟩
    else h

/-- The fixed context-manager configuration used by token counting and
trimming (service.py 49–88): the budget, the estimated tokens-per-char
divisor, the per-image token constant, and the `llm.get_num_tokens`
collaborator (`none` models it raising, which selects the
`len(text) // tokens_per_char` fallback, service.py 235–240). -/
structure CMEnv where
  max_input_tokens : Int
  tokens_per_char : Nat
  image_tokens : Int
  llm_tokens : String → Option Nat

/-- `ContextManager._count_text_tokens` (service.py 235–240).
(`tokens_per_char = 0` would raise `ZeroDivisionError` in Python where
`Nat` division returns 0; every scenario here uses a positive divisor.) -/
def countTextTokens (env : CMEnv) (s : String) : Nat :=
  match env.llm_tokens s with
  | some n => n
  | none => s.length / env.tokens_per_char

/-- `ContextManager._count_tokens` (service.py 222–233). -/
def countTokens (env : CMEnv) (m : PyMessage) : Int :=
  match m.content with
  | .text s => (countTextTokens env s : Int)
  | .parts items =>
    (items.map fun it =>
      match it with
      | .image _ => env.image_tokens
      | .textItem s => (countTextTokens env s : Int)).sum

/-- `ContextManager._add_message_with_tokens` (service.py 216–220). -/
def addMessageWithTokens (env : CMEnv) (h : MessageHistory) (m : PyMessage) :
    MessageHistory :=
  h.add_message m (countTokens env m)

/-- The image-stripping loop of `_trim_messages` (service.py 188–196),
with CPython's remove-during-iteration semantics made explicit: the
`for` iterator keeps a cursor `k`; `list.remove(item)` deletes the first
element equal to `item`, shifting the tail left so the element after a
removed one is skipped.  Returns the number of images removed and the
concatenated text of the `text` parts the iterator visited. -/
def pyStripIter (l : List ContentItem) (k : Nat) (removed : Nat) (acc : String) :
    Nat × String :=
  if hk : k < l.length then
    match hi : l.get ⟨k, hk⟩ with
    | .image u => pyStripIter (l.erase (.image u)) (k + 1) (removed + 1) acc
    | .textItem s => pyStripIter l (k + 1) removed (acc ++ s)
  else (removed, acc)
termination_by l.length - k
decreasing_by
  · have hmem : ContentItem.image u ∈ l := by
      rw [← hi]; exact l.get_mem k hk
    have := List.length_erase_of_mem hmem
    omega
  · omega

/-- Errors `_trim_messages` can raise: `ValueError('达到最大令牌限制 …')`
for the unrecoverable overflow (service.py 205–206), `IndexError` from
`messages[-1]` on an empty over-budget history (184), and
`ZeroDivisionError` from `diff / input_tokens` when the last message's
token count is zero (204). -/
inductive TrimErr where
  | overflow
  | indexError
  | zeroDivisionError
deriving DecidableEq

/-- The token deduction made by the image-stripping phase on the last
message (service.py 191–194): per removed image, `image_tokens` comes off
`diff`, the message's metadata and the running total. -/
def stripDeduct (env : CMEnv) (msg : MsgRec) : Int :=
  match msg.message.content with
  | .parts items => ((pyStripIter items 0 0 "").1 : Int) * env.image_tokens
  | .text _ => 0

/-- The last message's text after the image-stripping phase (service.py
188–197): list content collapses to the concatenated visited text parts;
plain-string content is unchanged. -/
def stripText (msg : MsgRec) : String :=
  match msg.message.content with
  | .parts items => (pyStripIter items 0 0 "").2
  | .text s => s

/-- `ContextManager._trim_messages` (service.py 178–214).  The float
`proportion = diff / input_tokens` and the comparison with `0.99` are
modelled exactly in `ℚ`; `int(len(content) * proportion)` is `pyTrunc`;
the slice `content[:-chars_to_remove]` is `pySliceTo content
(-chars_to_remove)` (note `[:-0]` empties the string, as in Python).
Writing the (possibly stripped) last message back into the list
(service.py 197–198) is the identity when the content was a plain
string, so `h1` below covers both content shapes. -/
def trim_messages (env : CMEnv) (h : MessageHistory) : Except TrimErr MessageHistory :=
  let diff := h.total_tokens - env.max_input_tokens
  if diff ≤ 0 then .ok h
  else
    match h.messages.getLast? with
    | none => .error .indexError
    | some msg =>
      let init := h.messages.dropLast
      let content1 : String := stripText msg
      let tokens1 : Int := msg.input_tokens - stripDeduct env msg
      let h1 : MessageHistory :=
        ⟨init ++ [⟨⟨msg.message.role, .text content1⟩, tokens1⟩],
          h.total_tokens - stripDeduct env msg⟩
      let diff1 := diff - stripDeduct env msg
      if diff1 ≤ 0 then .ok h1
      else if tokens1 = 0 then .error .zeroDivisionError
      else
        let proportion : ℚ := (diff1 : ℚ) / (tokens1 : ℚ)
        if (99 : ℚ) / 100 < proportion then .error .overflow
        else
          let chars_to_remove : Int := pyTrunc ((content1.length : ℚ) * proportion)
          let newContent := pySliceTo content1 (-chars_to_remove)
          let h2 := h1.remove_message (-1)
          .ok (addMessageWithTokens env h2 ⟨.human, .text newContent⟩)

/-- One `MessageHistory` mutation: `add_message` or `remove_message`. -/
inductive HistOp where
  | add (m : PyMessage) (tok : Int)
  | remove (index : Int)

/-- Apply one operation to a history. -/
def applyOp (h : MessageHistory) : HistOp → MessageHistory
  | .add m tok => h.add_message m tok
  | .remove i => h.remove_message i

/-- Apply a sequence of operations in order. -/
def applyOps (ops : List HistOp) (h : MessageHistory) : MessageHistory :=
  ops.foldl applyOp h

/-- The `MessageHistory` token invariant: the running `total_tokens`
equals the sum of the members' `input_tokens`. -/
def tokensOk (h : MessageHistory) : Prop :=
  h.total_tokens = (h.messages.map (·.input_tokens)).sum

/-! ## Theorems -/

/-- Removing index `i` subtracts exactly that member's value from the
mapped sum. -/
theorem sum_map_eraseIdx (f : MsgRec → Int) :
    ∀ (l : List MsgRec) (i : Nat) (hi : i < l.length),
      ((l.eraseIdx i).map f).sum = (l.map f).sum - f (l.get ⟨i, hi⟩)
  | a :: l, 0, _ => by simp [List.eraseIdx]
  | a :: l, i + 1, hi => by
    have ih := sum_map_eraseIdx f l i (by simpa using hi)
    simp [List.eraseIdx, ih]
    ring

/-- `add_message` preserves the token invariant. -/
theorem tokensOk_add (h : MessageHistory) (m : PyMessage) (tok : Int)
    (hh : tokensOk h) : tokensOk (h.add_message m tok) := by
  simp [tokensOk, MessageHistory.add_message] at *
  omega

/-- `remove_message` preserves the token invariant. -/
theorem tokensOk_remove (h : MessageHistory) (i : Int)
    (hh : tokensOk h) : tokensOk (h.remove_message i) := by
  unfold MessageHistory.remove_message
  split
  · exact hh
  · dsimp only
    split
    all_goals split
    case isTrue hj =>
      simp only [tokensOk] at *
      rw [sum_map_eraseIdx (·.input_tokens) h.messages _ (by omega)]
      omega
    case isFalse => exact hh
    case isTrue hj =>
      simp only [tokensOk] at *
      rw [sum_map_eraseIdx (·.input_tokens) h.messages _ (by omega)]
      omega
    case isFalse => exact hh

/-- C2: after any sequence of `add_message`/`remove_message` operations
starting from the fresh `MessageHistory()`, the running `total_tokens`
equals the sum of the `input_tokens` of the messages currently held
(src/brows_er（unfinished）/Agent/contextmanager/service.py 25–40). -/
theorem messageHistory_total_tokens_invariant (ops : List HistOp) :
    tokensOk (applyOps ops ⟨[], 0⟩) := by
  have general : ∀ (l : List HistOp) (h : MessageHistory), tokensOk h →
      tokensOk (applyOps l h) := by
    intro l
    induction l with
    | nil => intro h hh; exact hh
    | cons op rest ih =>
      intro h hh
      have hstep : tokensOk (applyOp h op) := by
        cases op with
        | add m tok => exact tokensOk_add h m tok hh
        | remove i => exact tokensOk_remove h i hh
      simpa [applyOps] using ih (applyOp h op) hstep
  exact general ops ⟨[], 0⟩ (by simp [tokensOk])

/-- `optChildren` of an everywhere-successful child computation is the
`flatMap` of the plain results. -/
theorem optChildren_eq_some (g : String → Option (List Collected))
    (f : String → List Collected) (hg : ∀ u, g u = some (f u)) :
    ∀ l : List String, optChildren g l = some (l.flatMap f) := by
  intro l
  induction l with
  | nil => simp [optChildren]
  | cons u us ih => simp [optChildren, hg u, ih]

/-- Fuel `max_depth - depth` always suffices for `deepSearchFuel`, and it
then computes exactly `deep_search`: the recursion is well-founded on
`max_depth - depth`. -/
theorem deepSearchFuel_complete (env : DSEnv) (cfg : SearchConfig) (task : String) :
    ∀ (fuel : Nat) (url : String) (depth : Nat), cfg.max_depth - depth ≤ fuel →
      deepSearchFuel env cfg task fuel url depth = some (deep_search env cfg task url depth) := by
  intro fuel
  induction fuel with
  | zero =>
    intro url depth hle
    have hd : cfg.max_depth ≤ depth := by omega
    rw [deep_search]
    simp [deepSearchFuel, hd]
  | succ f ih =>
    intro url depth hle
    by_cases hd : cfg.max_depth ≤ depth
    · rw [deep_search]
      simp [deepSearchFuel, hd]
    · have hlt : depth < cfg.max_depth := by omega
      have hchild : ∀ u, deepSearchFuel env cfg task f u (depth + 1) =
          some (deep_search env cfg task u (depth + 1)) :=
        fun u => ih u (depth + 1) (by omega)
      rw [deep_search]
      simp only [deepSearchFuel, if_neg hd, dif_neg hd, if_pos hlt]
      rw [optChildren_eq_some _ _ hchild]

/-- C10: `deep_search` terminates.  (i) the call returns `[]` as soon as
`depth ≥ max_depth` (well-founded on `max_depth - depth`, every recursive
call using `depth + 1`); (ii) the fuel-indexed variant with exactly
`max_depth - depth` fuel never exhausts its fuel and computes the same
value, certifying that the recursion tree is finite; (iii) each call
recurses on at most `max_results` child links. -/
theorem deep_search_terminates (env : DSEnv) (cfg : SearchConfig) (task : String)
    (url : String) (depth k : Nat) :
    deep_search env cfg task url (cfg.max_depth + k) = []
    ∧ deepSearchFuel env cfg task (cfg.max_depth - depth) url depth =
        some (deep_search env cfg task url depth)
    ∧ ((childCandidates env url).take cfg.max_results).length ≤ cfg.max_results := by
  refine ⟨?_, deepSearchFuel_complete env cfg task _ url depth (le_refl _), ?_⟩
  · rw [deep_search]
    simp
  · exact List.length_take_le _ _

/-- The environment of the cyclic-graph counterexample: a single page
`http://a` whose body is `"A"`, linking to itself, with a model reply that
scores every page `0.9`. -/
def envCyc : DSEnv :=
  ⟨fun _ => "A", fun _ => [("http://a", "x")], fun _ _ => "\x7b\"score\":0.9\x7d"⟩

/-- Search configuration with `max_depth = 2` (the source default) and
threshold `0.6`. -/
def cfgCyc : SearchConfig := ⟨true, 3, 5, 2, 6/10⟩

/-- C1 counterexample: on the self-linking page `http://a` with
`max_depth = 2`, `deep_search` returns the same URL twice — there is no
visited-URL set in `deep_search` (src/main.py 1219–1310), so a cyclic
link graph makes the engine score the same URL at several depths. -/
theorem deep_search_duplicate_url_counterexample :
    ¬ ((deep_search envCyc cfgCyc "t" "http://a" 0).map Collected.url).Nodup := by
  have h := deepSearchFuel_complete envCyc cfgCyc "t" 2 "http://a" 0 (by decide)
  have h2 : deepSearchFuel envCyc cfgCyc "t" 2 "http://a" 0 =
      some [⟨"http://a", "A", 9/10⟩, ⟨"http://a", "A", 9/10⟩] := by
    with_unfolding_all decide
  have hds : deep_search envCyc cfgCyc "t" "http://a" 0 =
      [⟨"http://a", "A", 9/10⟩, ⟨"http://a", "A", 9/10⟩] :=
    Option.some.inj ((h.symm.trans h2))
  rw [hds]
  decide

/-- C1 (amended): `deep_search` maintains no visited-URL set, so on a
cyclic link graph the same URL can be scored and returned more than once
(see the counterexample).  URL de-duplication of the run's result does
hold in the degenerate case `max_depth ≤ 1`, where the recursion can
return at most the seed itself. -/
theorem deep_search_nodup_shallow (env : DSEnv) (cfg : SearchConfig) (task url : String)
    (hd : cfg.max_depth ≤ 1) :
    (deep_search env cfg task url 0).length ≤ 1
    ∧ ((deep_search env cfg task url 0).map Collected.url).Nodup := by
  have hchild : ∀ u, deep_search env cfg task u 1 = [] := by
    intro u
    rw [deep_search]
    simp [hd]
  rcases Nat.le_one_iff_eq_zero_or_eq_one.mp hd with h0 | h1
  · rw [deep_search]
    simp [h0]
  · rw [deep_search]
    simp only [h1, dif_neg (by omega : ¬ (1 : Nat) ≤ 0), if_pos (by omega : (0 : Nat) < 1)]
    have : ∀ u ∈ (childCandidates env url).take cfg.max_results,
        deep_search env cfg task u (0 + 1) = [] := fun u _ => hchild u
    rw [List.flatMap_eq_nil_iff.mpr (by simpa using this)]
    split <;> simp

/-- Witness for the amended C1 at a concrete instance. -/
theorem deep_search_nodup_shallow_witness :
    (deep_search envCyc ⟨true, 3, 5, 1, 6/10⟩ "t" "http://a" 0).length ≤ 1
    ∧ ((deep_search envCyc ⟨true, 3, 5, 1, 6/10⟩ "t" "http://a" 0).map Collected.url).Nodup :=
  deep_search_nodup_shallow envCyc ⟨true, 3, 5, 1, 6/10⟩ "t" "http://a" (by decide)

/-- Search configuration with `max_depth = 0`. -/
def cfgD0 : SearchConfig := ⟨true, 3, 5, 0, 6/10⟩

/-- C9 counterexample: with `max_depth = 0` the guard `depth >= max_depth`
fires immediately (src/main.py 1221–1222), so `deep_search` returns `[]`
even though the seed page scores `0.9 ≥ 0.6` and would clear the quality
threshold — the seed is never returned, contradicting "at most one entry,
namely the seed itself when it clears the quality threshold". -/
theorem deep_search_depth0_counterexample :
    deep_search envCyc cfgD0 "t" "http://a" 0 = []
    ∧ cfgD0.quality_threshold ≤
        evaluate_content_quality (envCyc.reply (envCyc.body "http://a") "t") := by
  constructor
  · rw [deep_search]
    simp [cfgD0]
  · with_unfolding_all decide

/-- C9 (amended): with `max_depth = 0`, `deep_search` performs exactly one
call (zero recursive calls) and returns the empty list — the seed is not
returned even when it clears the quality threshold. -/
theorem deep_search_depth0 (env : DSEnv) (cfg : SearchConfig) (task url : String)
    (depth : Nat) (h0 : cfg.max_depth = 0) :
    deep_search env cfg task url depth = [] ∧ dsCalls env cfg task url depth = 1 := by
  constructor
  · rw [deep_search]
    simp [h0]
  · rw [dsCalls]
    simp [h0]

/-- Witness for the amended C9 at a concrete instance. -/
theorem deep_search_depth0_witness :
    deep_search envCyc cfgD0 "t" "http://a" 5 = [] ∧ dsCalls envCyc cfgD0 "t" "http://a" 5 = 1 :=
  deep_search_depth0 envCyc cfgD0 "t" "http://a" 5 (by decide)

/-- C8 counterexample: on the well-formed reply `{"score":5,...}` the
function returns `5.0`, outside `[0,1]` — `float(result.get('score',
0.0))` (src/main.py 1211) is returned without clamping, so the claimed
range `[0,1]` does not hold for every model reply. -/
theorem evaluate_content_quality_counterexample :
    evaluate_content_quality "\x7b\"score\":5,\"reason\":\"relevant\"\x7d" = 5
    ∧ 1 < evaluate_content_quality "\x7b\"score\":5,\"reason\":\"relevant\"\x7d" := by
  constructor <;> with_unfolding_all decide

/-- C8 (amended): `evaluate_content_quality` returns the parsed score
as-is — unclamped, so it can lie outside `[0,1]` — and on any failure of
the extract/parse/convert pipeline it returns exactly `0.0`; no exception
escapes (the result of the exception-explicit model is always `.ok`):
the inner `except (AttributeError, JSONDecodeError)` and the outer
`except Exception` both return `0.0`. -/
theorem evaluate_content_quality_total (reply : String) :
    evaluate_content_quality_exc reply = .ok ((scoreOfReply reply).getD 0)
    ∧ evaluate_content_quality reply = (scoreOfReply reply).getD 0 := by
  unfold evaluate_content_quality evaluate_content_quality_exc scoreOfReply evalQualityBody
  cases hb : reSearchBraces (pyStrip reply) with
  | none => simp
  | some m =>
    cases hj : json_loads m with
    | none => simp [hj]
    | some v =>
      cases v with
      | dict d =>
        cases hf : pyFloat ((pyDictGet d "score").getD (.num 0)) with
        | ok q => simp [hj, hf]
        | error e => cases e <;> simp [hj, hf]
      | num q => simp [hj]
      | str s => simp [hj]
      | bool b => simp [hj]
      | null => simp [hj]
      | arr xs => simp [hj]

/-- The extraction environment of the keywords counterexample: the step's
own selector `.x` locates one element with visible text `"hello world"`;
every other selector locates nothing. -/
def extractEnvC : ExtractEnv :=
  ⟨fun sel => if sel = ".x" then [⟨"hello world", fun _ => none⟩] else [],
    "http://u", "t0"⟩

/-- The extraction step of the counterexample: non-empty `keywords`
parameter `"zzz"`. -/
def extractPsC : ExtractParams := ⟨".x", "text", "zzz"⟩

/-- C6 counterexample: with `keywords = "zzz"` and an extracted fragment
`"hello world"` that does not contain the keyword (case-insensitively or
otherwise), `_execute_extract_text` still appends the fragment — the
`keywords` field of `ExtractParams` is never read by the executor
(src/main.py 901–958), so no keyword filtering happens. -/
theorem extract_text_keywords_counterexample :
    execute_extract_text extractEnvC extractPsC =
      (true, some ⟨"hello world", "http://u", "t0"⟩)
    ∧ extractPsC.keywords ≠ ""
    ∧ strContains (lowerStr "hello world") (lowerStr extractPsC.keywords) = false := by
  refine ⟨?_, ?_, ?_⟩ <;> with_unfolding_all decide

/-- C6 (amended): the executor tries the step's selector first and then
the fixed fallback list in order, succeeding at the first selector that
yields a non-empty list of stripped visible-text fragments, which it
joins, truncates to 5000 characters and appends to `collected_info`; the
step's `keywords` parameter is ignored — no fragment filtering of any
kind is applied. -/
theorem extract_text_fallback_spec (env : ExtractEnv) (ps : ExtractParams) :
    (∀ kw, execute_extract_text env ⟨ps.selector, ps.«attribute», kw⟩ =
      execute_extract_text env ps)
    ∧ execute_extract_text env ps =
        (match (selectorList ps.selector).find?
            (fun sel => !(fragmentsFor env ps sel).isEmpty) with
         | some sel =>
            (true, some ⟨String.mk ((String.intercalate "\n"
              (fragmentsFor env ps sel)).toList.take 5000),
              env.current_url, env.timestamp⟩)
         | none => (false, none)) := by
  constructor
  · intro kw
    rfl
  · show (match extractLoop env ps (selectorList ps.selector) with
      | some r => (true, some r)
      | none => (false, none)) = _
    have loopSpec : ∀ l : List String, extractLoop env ps l =
        (match l.find? (fun sel => !(fragmentsFor env ps sel).isEmpty) with
         | some sel =>
            some ⟨String.mk ((String.intercalate "\n"
              (fragmentsFor env ps sel)).toList.take 5000),
              env.current_url, env.timestamp⟩
         | none => none) := by
      intro l
      induction l with
      | nil => simp [extractLoop]
      | cons sel rest ih =>
        by_cases hsel : (fragmentsFor env ps sel).isEmpty
        · simp [extractLoop, hsel, List.find?, ih]
        · simp [extractLoop, hsel, List.find?]
    rw [loopSpec]
    cases (selectorList ps.selector).find? (fun sel => !(fragmentsFor env ps sel).isEmpty) with
    | none => rfl
    | some sel => rfl

/-- Three ad-free search results with distinct links. -/
def clickEnvC : ClickEnv :=
  ⟨[⟨"r0", some "http://r0"⟩, ⟨"r1", some "http://r1"⟩, ⟨"r2", some "http://r2"⟩]⟩

/-- C7 counterexample: `index = min(int(params.index), len(valid_results) - 1)`
(src/main.py 866) clamps only from above.  With three valid results and
requested index `-2`, clamping to `[0, len-1]` would select index `0`
(link `http://r0`), but the code computes `min(-2, 2) = -2` and Python's
negative indexing selects index `1`, opening `http://r1`. -/
theorem click_result_counterexample :
    execute_click_result clickEnvC (-2) = some "http://r1"
    ∧ (click_valid clickEnvC)[(max 0 (min (-2 : Int)
        (((click_valid clickEnvC).length : Int) - 1))).toNat]? =
        some ⟨"r0", some "http://r0"⟩
    ∧ ("http://r1" : String) ≠ "http://r0" := by
  refine ⟨?_, ?_, ?_⟩ <;> with_unfolding_all decide

/-- C7 (amended): after filtering ad entries, the requested index is
clamped only from above, via `min(index, len-1)`: an index `≥ len`
selects the last valid result; a negative index follows Python list
semantics — `-len ≤ i < 0` selects the element at `len + i`, and
`i < -len` raises `IndexError`, which the outer `except` converts to a
`False` (error) result; the absence of any non-ad result also yields an
error result rather than a crash. -/
theorem click_result_clamp_spec (env : ClickEnv) (i : Int) :
    (click_valid env = [] → execute_click_result env i = none)
    ∧ (click_valid env ≠ [] → ((click_valid env).length : Int) ≤ i →
        clickTarget env i = (click_valid env).getLast?)
    ∧ (-(((click_valid env).length : Int)) ≤ i → i < 0 →
        clickTarget env i = (click_valid env)[(((click_valid env).length : Int) + i).toNat]?)
    ∧ (i < -(((click_valid env).length : Int)) → execute_click_result env i = none) := by
  refine ⟨?_, ?_, ?_, ?_⟩
  · intro hv
    unfold execute_click_result
    by_cases hr : env.results.isEmpty
    · simp [hr]
    · simp [hr, hv]
  · intro hv hge
    have hlen : 1 ≤ (click_valid env).length := by
      cases hcv : click_valid env with
      | nil => exact absurd hcv hv
      | cons a l => simp [hcv]
    unfold clickTarget pyIndex
    have hmin : min i (((click_valid env).length : Int) - 1) =
        ((click_valid env).length : Int) - 1 := by omega
    rw [hmin]
    have h0 : ¬ ((((click_valid env).length : Int) - 1) < 0) := by omega
    simp only [if_neg h0, if_pos (by omega : (0:Int) ≤ ((click_valid env).length : Int) - 1)]
    rw [List.getLast?_eq_getElem?]
    congr 1
    omega
  · intro hlow hineg
    have hlen : 1 ≤ (click_valid env).length := by omega
    unfold clickTarget pyIndex
    have hmin : min i (((click_valid env).length : Int) - 1) = i := by omega
    rw [hmin]
    simp only [if_pos hineg, if_pos (by omega : (0:Int) ≤ i + ((click_valid env).length : Int))]
    congr 1
    omega
  · intro hlt
    unfold execute_click_result
    by_cases hr : env.results.isEmpty
    · simp [hr]
    · by_cases hv : (click_valid env).isEmpty
      · simp [hr, hv]
      · have htgt : clickTarget env i = none := by
          unfold clickTarget pyIndex
          have hmin : min i (((click_valid env).length : Int) - 1) = i := by
            have : 0 ≤ ((click_valid env).length : Int) := by positivity
            omega
          rw [hmin]
          simp only [if_pos (by omega : i < 0)]
          rw [if_neg (by omega)]
        simp [hr, hv, htgt]

/-- Witness for the amended C7 at a concrete instance: requested index
`99` on three valid results selects the last one. -/
theorem click_result_clamp_spec_witness :
    clickTarget clickEnvC 99 = (click_valid clickEnvC).getLast? :=
  (click_result_clamp_spec clickEnvC 99).2.1 (by decide) (by decide)

/-- `remove_message (-1)` on a history whose message list is `init ++ [x]`
drops `x` and subtracts its token cost. -/
theorem remove_message_concat (init : List MsgRec) (x : MsgRec) (t : Int) :
    (MessageHistory.mk (init ++ [x]) t).remove_message (-1) =
      ⟨init, t - x.input_tokens⟩ := by
  have hneg : ((-1 : Int) < 0) := by norm_num
  have hcond : (0 ≤ (-1 : Int) + ((init ++ [x]).length : Int)) ∧
      ((-1 : Int) + ((init ++ [x]).length : Int)) < ((init ++ [x]).length : Int) := by
    simp only [List.length_append, List.length_cons, List.length_nil]
    constructor <;> omega
  have hidx : ((-1 : Int) + ((init ++ [x]).length : Int)).toNat = init.length := by
    simp only [List.length_append, List.length_cons, List.length_nil]
    omega
  unfold MessageHistory.remove_message
  dsimp only
  rw [if_neg (by simp)]
  simp only [hneg, if_true, reduceIte]
  rw [dif_pos hcond]
  congr 1
  · rw [List.eraseIdx_eq_take_drop_succ, hidx]
    simp
  · have hget : (init ++ [x]).get ⟨((-1 : Int) + ((init ++ [x]).length : Int)).toNat,
        by omega⟩ = x := by
      rw [List.get_eq_getElem]
      exact List.getElem_concat_length init x _ hidx _
    rw [hget]

/-- C4: a successful `_trim_messages` changes at most the last message:
the history minus its last entry is exactly preserved (same messages,
same contents, same token costs), whether the budget was exceeded (image
strip / truncation replaces only `messages[-1]`) or not (no-op). -/
theorem trim_messages_frame (env : CMEnv) (h h₂ : MessageHistory)
    (hok : trim_messages env h = .ok h₂) :
    h₂.messages.dropLast = h.messages.dropLast := by
  unfold trim_messages at hok
  by_cases hd : h.total_tokens - env.max_input_tokens ≤ 0
  · rw [if_pos hd] at hok
    cases hok
    rfl
  · rw [if_neg hd] at hok
    cases hm : h.messages.getLast? with
    | none =>
      rw [hm] at hok
      cases hok
    | some msg =>
      rw [hm] at hok
      dsimp only at hok
      by_cases hd1 : h.total_tokens - env.max_input_tokens - stripDeduct env msg ≤ 0
      · rw [if_pos hd1] at hok
        cases hok
        simp
      · rw [if_neg hd1] at hok
        by_cases ht : msg.input_tokens - stripDeduct env msg = 0
        · rw [if_pos ht] at hok
          cases hok
        · rw [if_neg ht] at hok
          by_cases hp : (99 : ℚ) / 100 <
              ((h.total_tokens - env.max_input_tokens - stripDeduct env msg : Int) : ℚ) /
              ((msg.input_tokens - stripDeduct env msg : Int) : ℚ)
          · rw [if_pos hp] at hok
            cases hok
          · rw [if_neg hp] at hok
            cases hok
            rw [remove_message_concat]
            simp [addMessageWithTokens, MessageHistory.add_message]

/-- C3: when the history is over budget and remains over budget after any
image stripping, `_trim_messages` raises the overflow `ValueError`
(`ContextOverflowError`) exactly when the remaining overage exceeds 0.99
of the last message's (post-strip) token cost; at or below 0.99 it does
not raise, and instead replaces the last message by a `HumanMessage`
carrying the proportionally tail-truncated text and a freshly computed
token cost. -/
theorem trim_messages_overflow_boundary (env : CMEnv) (h : MessageHistory) (msg : MsgRec)
    (hlast : h.messages.getLast? = some msg)
    (hdiff : 0 < h.total_tokens - env.max_input_tokens)
    (hdiff1 : 0 < h.total_tokens - env.max_input_tokens - stripDeduct env msg)
    (htok : 0 < msg.input_tokens - stripDeduct env msg) :
    ((99 : ℚ) / 100 <
        ((h.total_tokens - env.max_input_tokens - stripDeduct env msg : Int) : ℚ) /
        ((msg.input_tokens - stripDeduct env msg : Int) : ℚ) →
      trim_messages env h = .error .overflow)
    ∧ (((h.total_tokens - env.max_input_tokens - stripDeduct env msg : Int) : ℚ) /
        ((msg.input_tokens - stripDeduct env msg : Int) : ℚ) ≤ (99 : ℚ) / 100 →
      trim_messages env h = .ok (addMessageWithTokens env
        ⟨h.messages.dropLast, h.total_tokens - stripDeduct env msg -
          (msg.input_tokens - stripDeduct env msg)⟩
        ⟨.human, .text (pySliceTo (stripText msg)
          (-(pyTrunc (((stripText msg).length : ℚ) *
            (((h.total_tokens - env.max_input_tokens - stripDeduct env msg : Int) : ℚ) /
             ((msg.input_tokens - stripDeduct env msg : Int) : ℚ))))))⟩)) := by
  unfold trim_messages
  rw [if_neg (by omega), hlast]
  dsimp only
  rw [if_neg (by omega), if_neg (by omega)]
  constructor
  · intro hp
    rw [if_pos hp]
  · intro hple
    rw [if_neg (not_lt.mpr hple)]
    rw [remove_message_concat]

/-- Decidable equality of `Except` results, for evaluating concrete trim
outcomes. -/
instance {e a : Type} [DecidableEq e] [DecidableEq a] : DecidableEq (Except e a) := fun x y =>
  match x, y with
  | .ok v, .ok w => if h : v = w then isTrue (by rw [h]) else isFalse (by simp [h])
  | .error v, .error w => if h : v = w then isTrue (by rw [h]) else isFalse (by simp [h])
  | .ok _, .error _ => isFalse (by simp)
  | .error _, .ok _ => isFalse (by simp)

/-- The context-manager environment of the concrete trim scenarios:
budget 10, one estimated token per character, no model token counter. -/
def envTrimW : CMEnv := ⟨10, 1, 800, fun _ => none⟩

/-- A single text-only message of 2 characters carrying 2000 tokens:
overage 1990 is 99.5% of the message's own cost. -/
def histOverW : MessageHistory := ⟨[⟨⟨.human, .text "aa"⟩, 2000⟩], 2000⟩

set_option maxRecDepth 4000 in
/-- Witness for C3 at a concrete instance: overage fraction
`1990/2000 = 0.995 > 0.99` makes `_trim_messages` raise the overflow
error. -/
theorem trim_messages_overflow_boundary_witness :
    trim_messages envTrimW histOverW = .error .overflow :=
  (trim_messages_overflow_boundary envTrimW histOverW ⟨⟨.human, .text "aa"⟩, 2000⟩
    (by with_unfolding_all decide) (by with_unfolding_all decide)
    (by with_unfolding_all decide) (by with_unfolding_all decide)).1
    (by with_unfolding_all decide)

/-- A single text-only message of 20 characters carrying 20 tokens over a
budget of 10. -/
def histFrameW : MessageHistory :=
  ⟨[⟨⟨.human, .text "aaaaaaaaaaaaaaaaaaaa"⟩, 20⟩], 20⟩

set_option maxRecDepth 4000 in
/-- Witness for C4 at a concrete instance: the over-budget history is
trimmed to a 10-character replacement message and the (empty) older
history is untouched. -/
theorem trim_messages_frame_witness :
    trim_messages envTrimW histFrameW =
      .ok ⟨[⟨⟨.human, .text "aaaaaaaaaa"⟩, 10⟩], 10⟩
    ∧ (MessageHistory.mk [⟨⟨.human, .text "aaaaaaaaaa"⟩, 10⟩] 10).messages.dropLast =
        histFrameW.messages.dropLast := by
  have hok : trim_messages envTrimW histFrameW =
      .ok ⟨[⟨⟨.human, .text "aaaaaaaaaa"⟩, 10⟩], 10⟩ := by
    with_unfolding_all decide
  exact ⟨hok, trim_messages_frame envTrimW histFrameW _ hok⟩

/-- The context-manager environment of the C5 scenario: budget
`max_input_tokens = 100`, the source-default 3 estimated tokens per
character, no model token counter. -/
def envC5 : CMEnv := ⟨100, 3, 800, fun _ => none⟩

/-- A history holding one text-only message of 450 characters costing
`450 // 3 = 150` tokens — the "last message costs 150 tokens" scenario. -/
def histC5 : MessageHistory :=
  ⟨[⟨⟨.human, .text (String.mk (List.replicate 450 'a'))⟩, 150⟩], 150⟩

set_option maxRecDepth 8000 in
/-- C5 counterexample: with `maxInputTokens = 100` and a last text-only
message of 450 characters costing 150 tokens, `_trim_messages` removes
`int(450 * 50/150) = 150` characters from the tail, keeping 300 of 450
characters — `300 > 450 / 2`, i.e. ≈67% of the original length, not the
claimed ≈33%.  (The resulting `total_tokens = 100 ≤ 100` part of the
claim does hold.) -/
theorem trim_150_counterexample :
    trim_messages envC5 histC5 =
      .ok ⟨[⟨⟨.human, .text (String.mk (List.replicate 300 'a'))⟩, 100⟩], 100⟩
    ∧ (String.mk (List.replicate 300 'a')).length = 300
    ∧ 450 / 2 < 300 := by
  refine ⟨?_, ?_, ?_⟩
  · with_unfolding_all decide
  · with_unfolding_all decide
  · norm_num

set_option maxRecDepth 8000 in
/-- C5 (amended): in the `maxInputTokens = 100`, last-message-costs-150
scenario, `trim()` removes ≈33% of the text from the tail — the
proportion removed is `overage / cost = 50/150` — so the message is
truncated to ≈67% of its original length (300 of 450 characters), and the
resulting `total_tokens` is `≤ 100` (here exactly 100). -/
theorem trim_150_truncation :
    trim_messages envC5 histC5 =
      .ok ⟨[⟨⟨.human, .text (String.mk (List.replicate 300 'a'))⟩, 100⟩], 100⟩
    ∧ 3 * 300 = 2 * 450
    ∧ (100 : Int) ≤ 100 := by
  refine ⟨?_, by norm_num, le_refl _⟩
  with_unfolding_all decide

end LLMSearcher
